import Mathlib

/-!
Shallow embedding of the core of pyRDDLGym covered by the specification:
the grounding / tensor-alignment engine of
Core/Simulator/RDDLTensors.py (object indexing, initial values, tensor
alignment, literal slicing) and the compiled simulation engine of
Core/Jax/JaxRDDLSimulator.py (constraint checking, reward sampling,
stepping).

Modelling conventions:
* Python dicts are insertion-ordered association lists over String keys;
  dict assignment replaces in place or appends (PyDict.setKey).
* numpy / jax arrays are index functions (List Nat -> V); the shape is
  carried separately where it matters.
* Python exceptions are Except / Option error results.  A method that
  mutates its object and can raise returns the object as mutated at the
  moment of the raise, which is what a caller observes after catching the
  exception.
* The lifted model (RDDLLiftedModel / RDDLModel) is an external
  collaborator; it is modelled as a structure of the data the core reads
  from it.
-/

namespace PyDict

/-- Python dict lookup d.get(k) / d[k] on an insertion-ordered assoc list. -/
def getKey {α : Type} : List (String × α) → String → Option α
  | [], _ => none
  | kv :: rest, k => if kv.1 = k then some kv.2 else getKey rest k

/-- Python dict assignment d[k] = v: replaces the value in place when the
key is present, appends the pair otherwise. -/
def setKey {α : Type} : List (String × α) → String → α → List (String × α)
  | [], k, v => [(k, v)]
  | kv :: rest, k, v => if kv.1 = k then (k, v) :: rest else kv :: setKey rest k v

/-- Python dict.update(other): assign every pair of other in order. -/
def updAll {α : Type} (s other : List (String × α)) : List (String × α) :=
  other.foldl (fun acc kv => setKey acc kv.1 kv.2) s

theorem getKey_setKey_self {α : Type} (s : List (String × α)) (k : String) (v : α) :
    getKey (setKey s k v) k = some v := by
  induction s with
  | nil => simp [getKey, setKey]
  | cons kv rest ih =>
    by_cases h : kv.1 = k
    · simp [getKey, setKey, h]
    · simp [getKey, setKey, h, ih]

theorem getKey_setKey_ne {α : Type} (s : List (String × α)) {k k0 : String} (v : α)
    (h : k ≠ k0) : getKey (setKey s k v) k0 = getKey s k0 := by
  induction s with
  | nil => simp [getKey, setKey, h]
  | cons kv rest ih =>
    simp only [setKey]
    by_cases hk : kv.1 = k
    · rw [if_pos hk]
      simp only [getKey]
      rw [if_neg h, if_neg (fun hh => h (hk.symm.trans hh))]
    · rw [if_neg hk]
      by_cases hk0 : kv.1 = k0
      · simp only [getKey, if_pos hk0]
      · simp only [getKey, if_neg hk0, ih]

theorem getKey_updAll_notin {α : Type} (other : List (String × α)) :
    ∀ (s : List (String × α)) (n : String), getKey other n = none →
      getKey (updAll s other) n = getKey s n := by
  induction other with
  | nil => intro s n _; rfl
  | cons kv rest ih =>
    intro s n h
    simp only [getKey] at h
    by_cases hk : kv.1 = n
    · simp [hk] at h
    · simp only [hk, if_false] at h
      simpa only [updAll, List.foldl] using
        (ih (setKey s kv.1 kv.2) n h).trans (getKey_setKey_ne s kv.2 hk)

theorem getKey_updAll_none {α : Type} (other : List (String × α)) :
    ∀ (s : List (String × α)) (n : String), getKey other n = none →
      getKey s n = none → getKey (updAll s other) n = none := by
  intro s n h hs
  rw [getKey_updAll_notin other s n h]
  exact hs

end PyDict

/-- A Python value appearing in declared initial values: int, float, bool,
or a string naming an object / enum literal.  Floats are modelled as
rationals; no claim exercises float rounding. -/
inductive PyVal where
  | int (n : Int)
  | real (q : ℚ)
  | bool (b : Bool)
  | str (s : String)
deriving DecidableEq, Inhabited

instance {ε α : Type} [DecidableEq ε] [DecidableEq α] : DecidableEq (Except ε α) := fun x y =>
  match x, y with
  | .ok a, .ok b =>
    if h : a = b then .isTrue (congrArg Except.ok h)
    else .isFalse (fun hh => h (Except.ok.inj hh))
  | .error e, .error f =>
    if h : e = f then .isTrue (congrArg Except.error h)
    else .isFalse (fun hh => h (Except.error.inj hh))
  | .ok _, .error _ => .isFalse (fun hh => Except.noConfusion hh)
  | .error _, .ok _ => .isFalse (fun hh => Except.noConfusion hh)

/-- The errors raised by the embedded code, one constructor per raise site
kind; pyClass maps each to the Python exception class the source raises. -/
inductive PyError where
  | arity (var : String) (need got : Nat)
  | tooManyArgs (var : String) (got : Nat)
  | typeMismatch (var : String) (pos : Nat) (expected got : String)
  | unresolvedParams (var : String) (free : List String)
  | invalidLiteral (value : PyVal) (expected : String)
  | unknownType (t : String)
  | invalidRange (prange : String) (var : String)
  | sizeMismatch (var : String)
  | keyError (key : String)
deriving DecidableEq, Inhabited

/-- The Python exception class raised at each modelled raise site. -/
def PyError.pyClass : PyError → String
  | .arity _ _ _ => "RDDLInvalidNumberOfArgumentsError"
  | .tooManyArgs _ _ => "RDDLInvalidNumberOfArgumentsError"
  | .typeMismatch _ _ _ _ => "RDDLInvalidObjectError"
  | .unresolvedParams _ _ => "RDDLInvalidNumberOfArgumentsError"
  | .invalidLiteral _ _ => "RDDLInvalidObjectError"
  | .unknownType _ => "RDDLInvalidObjectError"
  | .invalidRange _ _ => "RDDLTypeError"
  | .sizeMismatch _ => "RDDLInvalidNumberOfArgumentsError"
  | .keyError _ => "KeyError"

/-- The data the tensor engine reads from the external lifted model
(RDDLModel): ordered object universes per type, reverse lookup from an
object to its type, the enum types and literals, per-pvariable parameter
types and declared ranges, and the sparse declared initial values. -/
structure RDDLModel where
  objects : List (String × List String)
  objects_rev : List (String × String)
  enum_types : List String
  enum_literals : List String
  param_types : List (String × List String)
  variable_ranges : List (String × String)
  nonfluents : List (String × Option PyVal)
  init_state : List (String × Option PyVal)
  actions : List (String × Option PyVal)
deriving DecidableEq, Inhabited

namespace RDDLTensors

/-- Inner loop of _compile_objects: for i, obj in enumerate(objects):
index_of_object[obj] = i, starting the counter at i. -/
def addObjectsFrom : List (String × Nat) → Nat → List String → List (String × Nat)
  | acc, _, [] => acc
  | acc, i, o :: rest => addObjectsFrom (PyDict.setKey acc o i) (i + 1) rest

/-- Outer loop of _compile_objects over rddl.objects.values(). -/
def indexOfObjectAux : List (String × Nat) → List (String × List String) → List (String × Nat)
  | acc, [] => acc
  | acc, (_, objs) :: rest => indexOfObjectAux (addObjectsFrom acc 0 objs) rest

/-- Embeds RDDLTensors._compile_objects (the index_of_object part): one flat
dict assigning each object instance its position inside its own type list.
The grounded-names table also built there is only consumed by expand and is
not needed by any claim. -/
def compile_index_of_object (m : RDDLModel) : List (String × Nat) :=
  indexOfObjectAux [] m.objects

theorem addObjectsFrom_notMem (objs : List String) :
    ∀ (acc : List (String × Nat)) (i : Nat) (o : String), o ∉ objs →
      PyDict.getKey (addObjectsFrom acc i objs) o = PyDict.getKey acc o := by
  induction objs with
  | nil => intro acc i o _; rfl
  | cons x rest ih =>
    intro acc i o ho
    have hx : x ≠ o := fun h => ho (h ▸ List.mem_cons_self x rest)
    have ho2 : o ∉ rest := fun h => ho (List.mem_cons_of_mem x h)
    simpa only [addObjectsFrom] using
      (ih (PyDict.setKey acc x i) (i + 1) o ho2).trans (PyDict.getKey_setKey_ne acc i hx)

theorem addObjectsFrom_get (objs : List String) :
    ∀ (acc : List (String × Nat)) (i : Nat), objs.Nodup →
      ∀ (j : Nat) (hj : j < objs.length),
        PyDict.getKey (addObjectsFrom acc i objs) (objs.get ⟨j, hj⟩) = some (i + j) := by
  induction objs with
  | nil => intro acc i _ j hj; exact absurd hj (Nat.not_lt_zero j)
  | cons x rest ih =>
    intro acc i hnd j hj
    rcases List.nodup_cons.mp hnd with ⟨hx, hnd2⟩
    match j with
    | 0 =>
      simp only [List.get, addObjectsFrom]
      rw [addObjectsFrom_notMem rest (PyDict.setKey acc x i) (i + 1) x hx]
      rw [PyDict.getKey_setKey_self]
      simp
    | Nat.succ j0 =>
      have hj0 : j0 < rest.length := Nat.lt_of_succ_lt_succ hj
      have := ih (PyDict.setKey acc x i) (i + 1) hnd2 j0 hj0
      simp only [List.get, addObjectsFrom]
      rw [this]
      congr 1
      omega

theorem indexOfObjectAux_notMem (rest : List (String × List String)) :
    ∀ (acc : List (String × Nat)) (o : String), (∀ p ∈ rest, o ∉ p.2) →
      PyDict.getKey (indexOfObjectAux acc rest) o = PyDict.getKey acc o := by
  induction rest with
  | nil => intro acc o _; rfl
  | cons p rest2 ih =>
    intro acc o h
    have h1 : o ∉ p.2 := h p (List.mem_cons_self p rest2)
    have h2 : ∀ q ∈ rest2, o ∉ q.2 := fun q hq => h q (List.mem_cons_of_mem p hq)
    calc PyDict.getKey (indexOfObjectAux (addObjectsFrom acc 0 p.2) rest2) o
        = PyDict.getKey (addObjectsFrom acc 0 p.2) o := ih _ o h2
      _ = PyDict.getKey acc o := addObjectsFrom_notMem p.2 acc 0 o h1

theorem indexOfObjectAux_append (xs : List (String × List String)) :
    ∀ (acc : List (String × Nat)) (ys : List (String × List String)),
      indexOfObjectAux acc (xs ++ ys) = indexOfObjectAux (indexOfObjectAux acc xs) ys := by
  induction xs with
  | nil => intro acc ys; rfl
  | cons p rest ih =>
    intro acc ys
    simp only [List.cons_append, indexOfObjectAux]
    exact ih (addObjectsFrom acc 0 p.2) ys

end RDDLTensors

/-- C7: for every declared type T with instance list L (lists duplicate-free
and disjoint across types, as the object universe of a well-formed model is),
the object-to-index dict built by _compile_objects restricted to L is the
map sending the j-th instance to j: injective with image exactly the
interval from 0 to L.length. -/
theorem compile_objects_index_bijection
    (m : RDDLModel) (T : String) (L : List String)
    (hmem : (T, L) ∈ m.objects)
    (hnd : L.Nodup)
    (hdisj : m.objects.Pairwise (fun p q => ∀ o ∈ p.2, o ∉ q.2)) :
    (∀ (j : Nat) (hj : j < L.length),
        PyDict.getKey (RDDLTensors.compile_index_of_object m) (L.get ⟨j, hj⟩) = some j)
    ∧ (∀ o ∈ L, ∃ j, j < L.length ∧
        PyDict.getKey (RDDLTensors.compile_index_of_object m) o = some j)
    ∧ (∀ o1 ∈ L, ∀ o2 ∈ L,
        PyDict.getKey (RDDLTensors.compile_index_of_object m) o1 =
          PyDict.getKey (RDDLTensors.compile_index_of_object m) o2 → o1 = o2) := by
  rcases List.append_of_mem hmem with ⟨pre, post, hsplit⟩
  have hpost : ∀ q ∈ post, ∀ o ∈ L, o ∉ q.2 := by
    rw [hsplit] at hdisj
    rcases (List.pairwise_append.mp hdisj).2.1 |> List.pairwise_cons.mp with ⟨hTpost, _⟩
    intro q hq o ho
    exact hTpost q hq o ho
  have hmain : ∀ (j : Nat) (hj : j < L.length),
      PyDict.getKey (RDDLTensors.compile_index_of_object m) (L.get ⟨j, hj⟩) = some j := by
    intro j hj
    unfold RDDLTensors.compile_index_of_object
    rw [hsplit, RDDLTensors.indexOfObjectAux_append]
    simp only [RDDLTensors.indexOfObjectAux]
    rw [RDDLTensors.indexOfObjectAux_notMem post _ _
      (fun q hq => hpost q hq _ (L.get_mem _ _))]
    simpa using RDDLTensors.addObjectsFrom_get L _ 0 hnd j hj
  refine ⟨hmain, ?_, ?_⟩
  · intro o ho
    rcases List.mem_iff_get.mp ho with ⟨⟨j, hj⟩, rfl⟩
    exact ⟨j, hj, hmain j hj⟩
  · intro o1 h1 o2 h2 heq
    rcases List.mem_iff_get.mp h1 with ⟨⟨j1, hj1⟩, rfl⟩
    rcases List.mem_iff_get.mp h2 with ⟨⟨j2, hj2⟩, rfl⟩
    rw [hmain j1 hj1, hmain j2 hj2] at heq
    have : j1 = j2 := by injection heq
    subst this
    rfl

/-- Concrete model used by several witnesses: a zone type with three
objects and an enum type h with two literals. -/
def mWitness : RDDLModel :=
  { objects := [("h", ["h1", "h2"]), ("zone", ["z1", "z2", "z3"])]
    objects_rev := [("h1", "h"), ("h2", "h"), ("z1", "zone"), ("z2", "zone"), ("z3", "zone")]
    enum_types := ["h", "zone"]
    enum_literals := ["h1", "h2", "z1", "z2", "z3"]
    param_types := [("adj", ["zone", "zone"]), ("adjhz", ["h", "zone"])]
    variable_ranges := [("adj", "bool"), ("adjhz", "real")]
    nonfluents := []
    init_state := []
    actions := [] }

/-- Witness for C7: the bijection theorem applied to the concrete zone type. -/
theorem compile_objects_index_bijection_witness :
    PyDict.getKey (RDDLTensors.compile_index_of_object mWitness)
      ((["z1", "z2", "z3"] : List String).get ⟨2, by decide⟩) = some 2 :=
  (compile_objects_index_bijection mWitness "zone" ["z1", "z2", "z3"]
    (by decide) (by decide) (by decide)).1 2 (by decide)

namespace RDDLTensors

/-- Modelled from the spec: rddl.parse (defined on the external lifted
model, not under src/) splits a grounded name into its pvariable and
arguments (spec section 6); parse(name)[0] is the part of the name before
the opening parenthesis. -/
def parseVarName (name : String) : String :=
  String.mk (name.toList.takeWhile (fun c => c ≠ '('))

/-- The merge at the top of _compile_init_values: nonfluents, then
init_state, then actions are update-d into one dict and entries whose
value is None are dropped. -/
def merged_init_values (m : RDDLModel) : List (String × PyVal) :=
  (PyDict.updAll (PyDict.updAll m.nonfluents m.init_state) m.actions).filterMap
    (fun kv => kv.2.map (fun v => (kv.1, v)))

/-- One iteration of the enum-literal conversion loop of
_compile_init_values (lines 71-79): if the range of the entry's pvariable
is an enum type, the declared value must be a literal of that very type
(objects_rev.get(value) == prange), else RDDLInvalidObjectError; a literal
that belongs is replaced by its integer index. -/
def convertEnumValue (m : RDDLModel) (idx : List (String × Nat))
    (name : String) (v : PyVal) : Except PyError PyVal :=
  match PyDict.getKey m.variable_ranges (parseVarName name) with
  | none => .error (.keyError (parseVarName name))
  | some prange =>
    if prange ∈ m.enum_types then
      match v with
      | .str s =>
        if PyDict.getKey m.objects_rev s = some prange then
          match PyDict.getKey idx s with
          | some i => .ok (.int (Int.ofNat i))
          | none => .error (.keyError s)
        else .error (.invalidLiteral (.str s) prange)
      | other => .error (.invalidLiteral other prange)
    else .ok v

/-- The enum-literal conversion loop of _compile_init_values over the merged
declared values, in iteration order; the first offending entry aborts the
construction with its error. -/
def convertEnumInit (m : RDDLModel) (idx : List (String × Nat)) :
    List (String × PyVal) → Except PyError (List (String × PyVal))
  | [] => .ok []
  | (name, v) :: rest =>
    match convertEnumValue m idx name v with
    | .error e => .error e
    | .ok v2 =>
      match convertEnumInit m idx rest with
      | .error e => .error e
      | .ok rest2 => .ok ((name, v2) :: rest2)

/-- An initial-value entry is an enum-literal offender when its pvariable
has an enum range but the declared value is not a literal of that enum
type (the condition of the raise on line 75-78 of RDDLTensors.py). -/
def isEnumOffender (m : RDDLModel) (name : String) (v : PyVal) : Bool :=
  match PyDict.getKey m.variable_ranges (parseVarName name) with
  | none => false
  | some prange =>
    if prange ∈ m.enum_types then
      match v with
      | .str s => PyDict.getKey m.objects_rev s ≠ some prange
      | _ => true
    else false

/-- Value an entry is converted to when no error occurs: enum-ranged
literals become their integer index, everything else stays unchanged. -/
def convSpecValue (m : RDDLModel) (idx : List (String × Nat))
    (name : String) (v : PyVal) : PyVal :=
  match PyDict.getKey m.variable_ranges (parseVarName name) with
  | none => v
  | some prange =>
    if prange ∈ m.enum_types then
      match v with
      | .str s => .int (Int.ofNat ((PyDict.getKey idx s).getD 0))
      | other => other
    else v

/-- A declared value is literal-indexed when, if it is a string that
objects_rev knows, the object-to-index dict also knows it. -/
def litIndexed (m : RDDLModel) (idx : List (String × Nat)) : PyVal → Bool
  | .str s => !(PyDict.getKey m.objects_rev s).isSome || (PyDict.getKey idx s).isSome
  | _ => true

/-- Well-formedness of the model data reaching the conversion loop: every
declared entry names a pvariable with a declared range, and every literal
that objects_rev assigns to a type is indexed by index_of_object. -/
def InitWF (m : RDDLModel) (idx : List (String × Nat))
    (vals : List (String × PyVal)) : Prop :=
  (∀ p ∈ vals, (PyDict.getKey m.variable_ranges (parseVarName p.1)).isSome)
  ∧ (∀ p ∈ vals, litIndexed m idx p.2 = true)

instance (m : RDDLModel) (idx : List (String × Nat)) (vals : List (String × PyVal)) :
    Decidable (InitWF m idx vals) :=
  inferInstanceAs (Decidable (_ ∧ _))

theorem convertEnumValue_ok (m : RDDLModel) (idx : List (String × Nat))
    (name : String) (v : PyVal)
    (hr : (PyDict.getKey m.variable_ranges (parseVarName name)).isSome)
    (hlit : litIndexed m idx v = true)
    (hok : isEnumOffender m name v = false) :
    convertEnumValue m idx name v = .ok (convSpecValue m idx name v) := by
  cases hgr : PyDict.getKey m.variable_ranges (parseVarName name) with
  | none => rw [hgr] at hr; simp at hr
  | some prange =>
    by_cases he : prange ∈ m.enum_types
    · cases v with
      | str s =>
        have hok2 : PyDict.getKey m.objects_rev s = some prange := by
          simpa [isEnumOffender, hgr, he] using hok
        cases hi : PyDict.getKey idx s with
        | none => simp [litIndexed, hok2, hi] at hlit
        | some i => simp [convertEnumValue, convSpecValue, hgr, he, hok2, hi]
      | int n => simp [isEnumOffender, hgr, he] at hok
      | real q => simp [isEnumOffender, hgr, he] at hok
      | bool b => simp [isEnumOffender, hgr, he] at hok
    · cases v <;> simp [convertEnumValue, convSpecValue, hgr, he]

theorem convertEnumValue_offender (m : RDDLModel) (idx : List (String × Nat))
    (name : String) (v : PyVal)
    (hbad : isEnumOffender m name v = true) :
    ∃ prange, PyDict.getKey m.variable_ranges (parseVarName name) = some prange
      ∧ prange ∈ m.enum_types
      ∧ convertEnumValue m idx name v = .error (.invalidLiteral v prange) := by
  cases hgr : PyDict.getKey m.variable_ranges (parseVarName name) with
  | none => simp [isEnumOffender, hgr] at hbad
  | some prange =>
    by_cases he : prange ∈ m.enum_types
    · refine ⟨prange, hgr ▸ rfl, he, ?_⟩
      cases v with
      | str s =>
        have hne : PyDict.getKey m.objects_rev s ≠ some prange := by
          simpa [isEnumOffender, hgr, he] using hbad
        simp [convertEnumValue, hgr, he, hne]
      | int n => simp [convertEnumValue, hgr, he]
      | real q => simp [convertEnumValue, hgr, he]
      | bool b => simp [convertEnumValue, hgr, he]
    · simp [isEnumOffender, hgr, he] at hbad

end RDDLTensors

/-- The 52 ascii letters available as einsum axis labels
(RDDLTensors.VALID_SYMBOLS). -/
def RDDLTensors.VALID_SYMBOLS : String :=
  "abcdefghijklmnopqrstuvwxyzABCDEFGHIJKLMNOPQRSTUVWXYZ"

/-- Python list comprehension filtering out the positions listed in
literals: obj for i, obj in enumerate(xs) if i not in literals. -/
def RDDLTensors.dropLits {α : Type} (xs : List α) (literals : List Nat) : List α :=
  (xs.enum.filter (fun p => !(literals.contains p.1))).map (fun p => p.2)

/-- The data captured by the closure _transform built in RDDLTensors.map:
the trailing new axes, the output shape, whether einsum or transpose is
used, and the einsum subscripts string or transpose axes tuple. -/
structure MapResult where
  new_axis : List Nat
  out_shape : List Nat
  use_einsum : Bool
  use_tr : Bool
  subscripts : Option (String ⊕ List Nat)
deriving DecidableEq, Inhabited

/-- The string cache key built on line 276 of RDDLTensors.py; the exact
f-string rendering is approximated, but like the source it is a function of
exactly the five components captured by the transform. -/
def RDDLTensors.transformId (r : MapResult) : String :=
  toString r.new_axis ++ "_" ++ toString r.out_shape ++ "_"
    ++ toString r.use_einsum ++ "_" ++ toString r.use_tr ++ "_"
    ++ (match r.subscripts with
        | none => "None"
        | some (Sum.inl s) => s
        | some (Sum.inr axes) => toString axes)

/-- Inner loop of RDDLTensors.map (lines 229-237): scan sign_in for axes
whose free-variable label matches the output label; each match writes the
output position into the permutation and must agree in type, else
RDDLInvalidObjectError; returns the updated permutation entries for the
sign_in region together with the new_dim flag (true when no match). -/
def RDDLTensors.matchLoop (var o_out t_out : String) (i_out : Nat) :
    Nat → List (String × String) → List (Option Nat) →
      Except PyError (List (Option Nat) × Bool)
  | _, [], _ => .ok ([], true)
  | i_in, (o_in, t_in) :: sin, base =>
    if o_in = o_out then
      if t_out ≠ t_in then .error (.typeMismatch var (i_in + 1) t_in t_out)
      else
        match RDDLTensors.matchLoop var o_out t_out i_out (i_in + 1) sin base.tail with
        | .error e => .error e
        | .ok (base2, _) => .ok (some i_out :: base2, false)
    else
      match RDDLTensors.matchLoop var o_out t_out i_out (i_in + 1) sin base.tail with
      | .error e => .error e
      | .ok (base2, nd) => .ok (base.headD none :: base2, nd)

/-- Outer loop of RDDLTensors.map (lines 227-242) over the output
signature: accumulates the permutation entries over the sign_in region, the
appended permutation entries for new axes, and the new dimension sizes
(len(objects[t_out]), a KeyError when t_out is unknown). -/
def RDDLTensors.buildPermutation (m : RDDLModel) (var : String)
    (sign_in : List (String × String)) :
    List (String × String) → Nat → List (Option Nat) → List Nat → List Nat →
      Except PyError (List (Option Nat) × List Nat × List Nat)
  | [], _, base, app, dims => .ok (base, app, dims)
  | (o_out, t_out) :: outs, i_out, base, app, dims =>
    match RDDLTensors.matchLoop var o_out t_out i_out 0 sign_in base with
    | .error e => .error e
    | .ok (base2, new_dim) =>
      if new_dim then
        match PyDict.getKey m.objects t_out with
        | none => .error (.keyError t_out)
        | some objs =>
          RDDLTensors.buildPermutation m var sign_in outs (i_out + 1) base2
            (app ++ [i_out]) (dims ++ [objs.length])
      else RDDLTensors.buildPermutation m var sign_in outs (i_out + 1) base2 app dims

/-- Embeds RDDLTensors.shape: the tensor shape of a list of parameter
types, an RDDLInvalidObjectError for an unknown type. -/
def RDDLTensors.shape (m : RDDLModel) (types : List String) : Except PyError (List Nat) :=
  match types.find? (fun t => (PyDict.getKey m.objects t).isNone) with
  | some t => .error (.unknownType t)
  | none => .ok (types.map (fun t => ((PyDict.getKey m.objects t).getD []).length))

/-- Models np.argsort on a list that is a permutation of range n (the only
shape the source feeds it, as the inverse permutation for np.transpose):
the position of each value in ascending value order. -/
def RDDLTensors.argsortPerm (p : List Nat) : List Nat :=
  (List.range p.length).map (fun v => p.indexOf v)

/-- The pure computation of RDDLTensors.map (lines 198-271): arity check,
literal elimination, the 52-symbol limit, permutation construction, the
unresolved-parameter safeguard, and the choice between einsum, transpose or
identity, producing the data captured by the _transform closure.  The
Python parameter obj_in=None is modelled by passing the empty list. -/
def RDDLTensors.computeMapSpec (m : RDDLModel) (var : String) (obj_in : List String)
    (sign_out : List (String × String)) (literals : List Nat) :
    Except PyError MapResult :=
  let types_in0 := (PyDict.getKey m.param_types var).getD []
  if obj_in.length ≠ types_in0.length then
    .error (.arity var types_in0.length obj_in.length)
  else
    let types_in := RDDLTensors.dropLits types_in0 literals
    let obj_in2 := RDDLTensors.dropLits obj_in literals
    let n_out := sign_out.length
    if RDDLTensors.VALID_SYMBOLS.toList.length < n_out then
      .error (.tooManyArgs var n_out)
    else
      let sign_in := obj_in2.zip types_in
      match RDDLTensors.buildPermutation m var sign_in sign_out 0
          (List.replicate sign_in.length none) [] [] with
      | .error e => .error e
      | .ok (base, app, new_dims) =>
        let free := (sign_in.zip base).filterMap
          (fun pb => if pb.2 = none then some pb.1.1 else none)
        if free ≠ [] then .error (.unresolvedParams var free)
        else
          match RDDLTensors.shape m types_in with
          | .error e => .error e
          | .ok in_shape =>
            let out_shape := in_shape ++ new_dims
            let new_axis := List.range' in_shape.length new_dims.length
            let perm := base.map (fun p => p.getD 0) ++ app
            let lhs := String.mk (perm.map
              (fun p => RDDLTensors.VALID_SYMBOLS.toList.getD p 'a'))
            let rhs := String.mk (RDDLTensors.VALID_SYMBOLS.toList.take n_out)
            let use_einsum := decide (lhs.toList.dedup.length ≠ lhs.toList.length)
            let use_tr := decide (lhs ≠ rhs)
            let subs := if use_einsum then some (Sum.inl (lhs ++ "->" ++ rhs))
                        else if use_tr then some (Sum.inr (RDDLTensors.argsortPerm perm))
                        else none
            .ok ⟨new_axis, out_shape, use_einsum, use_tr, subs⟩

/-- The state of a RDDLTensors instance as far as map is concerned: the
lifted model it reads, the object index from _compile_objects, and the
transform cache _cached_transforms. -/
structure RDDLTensors where
  rddl : RDDLModel
  index_of_object : List (String × Nat)
  cached_transforms : List (String × MapResult)
deriving DecidableEq, Inhabited

/-- Embeds the construction in RDDLTensors.__init__ as far as map and
literal_slice read it: index_of_object from _compile_objects and an empty
transform cache (the debug log is I/O only and omitted). -/
def RDDLTensors.ofModel (m : RDDLModel) : RDDLTensors :=
  { rddl := m
    index_of_object := RDDLTensors.compile_index_of_object m
    cached_transforms := [] }

/-- Embeds RDDLTensors.map (lines 174-309): compute the transform data,
then return the cached transform when the key already exists, otherwise
create it and store it in the cache. -/
def RDDLTensors.map (t : RDDLTensors) (var : String) (obj_in : List String)
    (sign_out : List (String × String)) (literals : List Nat) :
    Except PyError (MapResult × RDDLTensors) :=
  match RDDLTensors.computeMapSpec t.rddl var obj_in sign_out literals with
  | .error e => .error e
  | .ok r =>
    match PyDict.getKey t.cached_transforms (RDDLTensors.transformId r) with
    | some cached => .ok (cached, t)
    | none =>
      .ok (r,
        { t with
          cached_transforms :=
            PyDict.setKey t.cached_transforms (RDDLTensors.transformId r) r })

/-- Semantics of gnp.expand_dims at the trailing axes followed by
gnp.broadcast_to the output shape: the result at an output index reads the
input at the first rank_in coordinates. -/
def expandBroadcast {V : Type} (rank_in : Nat) (a : List Nat → V) : List Nat → V :=
  fun idx => a (idx.take rank_in)

/-- Semantics of gnp.transpose(sample, axes): output axis k is input axis
axes[k], so input coordinate m is the output coordinate at the position of
m in axes. -/
def transposeApply {V : Type} (axes : List Nat) (a : List Nat → V) : List Nat → V :=
  fun idx => a ((List.range axes.length).map (fun m => idx.getD (axes.indexOf m) 0))

/-- Splits an einsum subscripts char list at the arrow. -/
def splitArrow : List Char → List Char × List Char
  | [] => ([], [])
  | '-' :: '>' :: rest => ([], rest)
  | c :: rest =>
    let r := splitArrow rest
    (c :: r.1, r.2)

/-- Semantics of gnp.einsum(lhs -> rhs, sample) in the only regime map
produces: every lhs label also occurs in rhs, so no summation happens and
the result at an output index (indexed by the rhs labels in order) reads
the input at, for each lhs position, the output coordinate of that label. -/
def einsumApply {V : Type} (lhs rhs : List Char) (a : List Nat → V) : List Nat → V :=
  fun idx => a (lhs.map (fun c => idx.getD (rhs.indexOf c) 0))

/-- Semantics of the closure _transform (lines 280-290): expand and
broadcast the new axes when present, then einsum, transpose, or return the
sample unchanged. -/
def applyMapResult {V : Type} (r : MapResult) (a : List Nat → V) : List Nat → V :=
  let rank_in := r.out_shape.length - r.new_axis.length
  let sample := if r.new_axis = [] then a else expandBroadcast rank_in a
  if r.use_einsum then
    match r.subscripts with
    | some (Sum.inl s) =>
      let lr := splitArrow s.toList
      einsumApply lr.1 lr.2 sample
    | _ => sample
  else if r.use_tr then
    match r.subscripts with
    | some (Sum.inr axes) => transposeApply axes sample
    | _ => sample
  else sample

/-- Model for the C4 alignment example: a single type zone with three
objects and a pvariable adj(zone, zone) stored as a (3,3) array. -/
def m4 : RDDLModel :=
  { objects := [("zone", ["z1", "z2", "z3"])]
    objects_rev := [("z1", "zone"), ("z2", "zone"), ("z3", "zone")]
    enum_types := []
    enum_literals := []
    param_types := [("adj", ["zone", "zone"])]
    variable_ranges := [("adj", "bool")]
    nonfluents := []
    init_state := []
    actions := [] }

/-- A freshly constructed RDDLTensors over m4. -/
def t4 : RDDLTensors := RDDLTensors.ofModel m4

/-- The transform data the C4 call computes: no new axes, output shape
(3,3), a plain transpose with inverse-permutation axes (1,0). -/
def r4 : MapResult := ⟨[], [3, 3], false, true, some (Sum.inr [1, 0])⟩

/-- The state of t4 after the C4 call cached the transform. -/
def t4after : RDDLTensors :=
  { rddl := m4
    index_of_object := [("z1", 0), ("z2", 1), ("z3", 2)]
    cached_transforms := [("[]_[3, 3]_false_true_[1, 0]", r4)] }

/-- C4: invoking map for adj(?x, ?y) against the output signature
((?y, zone), (?x, zone)) produces a transform that, applied to any stored
(3,3) array, returns its transpose: entry (i, j) of the output is entry
(j, i) of the input. -/
theorem map_transpose_example (r : MapResult) (t2 : RDDLTensors)
    (h : RDDLTensors.map t4 "adj" ["?x", "?y"] [("?y", "zone"), ("?x", "zone")] []
          = .ok (r, t2)) :
    ∀ (V : Type) (a : List Nat → V) (i j : Nat),
      applyMapResult r a [i, j] = a [j, i] := by
  have hspec : RDDLTensors.map t4 "adj" ["?x", "?y"] [("?y", "zone"), ("?x", "zone")] []
      = .ok (r4, t4after) := by decide
  have hr : r = r4 := by
    have h2 := Except.ok.inj (hspec.symm.trans h)
    exact (congrArg Prod.fst h2).symm
  subst hr
  intro V a i j
  rfl

/-- Witness for C4: the transform applied to the identity array at index
(1, 2) reads index (2, 1). -/
theorem map_transpose_example_witness :
    applyMapResult r4 (fun idx => idx) [1, 2] = [2, 1] :=
  map_transpose_example r4 t4after (by decide) (List Nat) (fun idx => idx) 1 2

/-- C5: a second map call with the identical arguments returns the very
cached transform the first call left in the cache, with the cache state
unchanged; the cache is append-only (existing entries are never mutated or
invalidated); and applying the returned transform to equal input arrays
gives equal outputs (the transform is a pure function). -/
theorem RDDLTensors.map_eq_error (t : RDDLTensors) (var : String) (obj_in : List String)
    (sign_out : List (String × String)) (literals : List Nat) (e : PyError)
    (h : RDDLTensors.computeMapSpec t.rddl var obj_in sign_out literals = .error e) :
    RDDLTensors.map t var obj_in sign_out literals = .error e := by
  unfold RDDLTensors.map
  rw [h]

theorem RDDLTensors.map_eq_hit (t : RDDLTensors) (var : String) (obj_in : List String)
    (sign_out : List (String × String)) (literals : List Nat) (s cached : MapResult)
    (h : RDDLTensors.computeMapSpec t.rddl var obj_in sign_out literals = .ok s)
    (hc : PyDict.getKey t.cached_transforms (RDDLTensors.transformId s) = some cached) :
    RDDLTensors.map t var obj_in sign_out literals = .ok (cached, t) := by
  unfold RDDLTensors.map
  rw [h]
  simp [hc]

theorem RDDLTensors.map_eq_miss (t : RDDLTensors) (var : String) (obj_in : List String)
    (sign_out : List (String × String)) (literals : List Nat) (s : MapResult)
    (h : RDDLTensors.computeMapSpec t.rddl var obj_in sign_out literals = .ok s)
    (hc : PyDict.getKey t.cached_transforms (RDDLTensors.transformId s) = none) :
    RDDLTensors.map t var obj_in sign_out literals = .ok (s,
      { t with
        cached_transforms :=
          PyDict.setKey t.cached_transforms (RDDLTensors.transformId s) s }) := by
  unfold RDDLTensors.map
  rw [h]
  simp [hc]

theorem map_cache_idempotent (t : RDDLTensors) (var : String) (obj_in : List String)
    (sign_out : List (String × String)) (literals : List Nat)
    (r1 : MapResult) (t1 : RDDLTensors)
    (h : RDDLTensors.map t var obj_in sign_out literals = .ok (r1, t1)) :
    RDDLTensors.map t1 var obj_in sign_out literals = .ok (r1, t1)
    ∧ (∀ k v, PyDict.getKey t.cached_transforms k = some v →
        PyDict.getKey t1.cached_transforms k = some v)
    ∧ (∀ (V : Type) (a b : List Nat → V), a = b →
        applyMapResult r1 a = applyMapResult r1 b) := by
  cases hspec : RDDLTensors.computeMapSpec t.rddl var obj_in sign_out literals with
  | error e =>
    rw [RDDLTensors.map_eq_error t var obj_in sign_out literals e hspec] at h
    exact absurd h (by simp)
  | ok s =>
    cases hc : PyDict.getKey t.cached_transforms (RDDLTensors.transformId s) with
    | some cached =>
      have hmap := RDDLTensors.map_eq_hit t var obj_in sign_out literals s cached hspec hc
      rw [hmap] at h
      have h2 := Except.ok.inj h
      have hr1 : r1 = cached := (congrArg Prod.fst h2).symm
      have ht1 : t1 = t := (congrArg Prod.snd h2).symm
      subst r1
      subst t1
      exact ⟨hmap, fun k v hkv => hkv, fun V a b hab => by rw [hab]⟩
    | none =>
      have hmap := RDDLTensors.map_eq_miss t var obj_in sign_out literals s hspec hc
      rw [hmap] at h
      have h2 := Except.ok.inj h
      have hr1 : r1 = s := (congrArg Prod.fst h2).symm
      have ht1 : t1 =
          { t with
            cached_transforms :=
              PyDict.setKey t.cached_transforms (RDDLTensors.transformId s) s } :=
        (congrArg Prod.snd h2).symm
      subst r1
      subst t1
      refine ⟨?_, ?_, fun V a b hab => by rw [hab]⟩
      · exact RDDLTensors.map_eq_hit _ var obj_in sign_out literals s s hspec
          (PyDict.getKey_setKey_self t.cached_transforms (RDDLTensors.transformId s) s)
      · intro k v hkv
        have hk : RDDLTensors.transformId s ≠ k := by
          intro hEq
          rw [hEq] at hc
          rw [hc] at hkv
          exact Option.noConfusion hkv
        show PyDict.getKey
          (PyDict.setKey t.cached_transforms (RDDLTensors.transformId s) s) k = some v
        rw [PyDict.getKey_setKey_ne t.cached_transforms s hk]
        exact hkv

/-- Witness for C5: the second identical call on the cache left by the C4
call returns the very cached transform and cache state of the first call. -/
theorem map_cache_idempotent_witness :
    RDDLTensors.map t4after "adj" ["?x", "?y"] [("?y", "zone"), ("?x", "zone")] []
      = .ok (r4, t4after) :=
  (map_cache_idempotent t4 "adj" ["?x", "?y"] [("?y", "zone"), ("?x", "zone")] []
    r4 t4after (by decide)).1

theorem matchLoop_error_shape (var o_out t_out : String) (i_out : Nat)
    (sin : List (String × String)) :
    ∀ (i_in : Nat) (base : List (Option Nat)) (e : PyError),
      RDDLTensors.matchLoop var o_out t_out i_out i_in sin base = .error e →
      ∃ v p u1 u2, e = .typeMismatch v p u1 u2 := by
  induction sin with
  | nil =>
    intro i_in base e h
    exact absurd h (by simp [RDDLTensors.matchLoop])
  | cons hd sin2 ih =>
    intro i_in base e h
    cases hd with
    | mk o_in t_in =>
      simp only [RDDLTensors.matchLoop] at h
      by_cases ho : o_in = o_out
      · rw [if_pos ho] at h
        by_cases ht : t_out ≠ t_in
        · rw [if_pos ht] at h
          exact ⟨var, i_in + 1, t_in, t_out, (Except.error.inj h).symm⟩
        · rw [if_neg ht] at h
          cases hrec : RDDLTensors.matchLoop var o_out t_out i_out (i_in + 1) sin2 base.tail with
          | error e2 =>
            rw [hrec] at h
            have he2 : e2 = e := Except.error.inj h
            subst he2
            exact ih (i_in + 1) base.tail e2 hrec
          | ok pair =>
            rw [hrec] at h
            exact absurd h (by simp)
      · rw [if_neg ho] at h
        cases hrec : RDDLTensors.matchLoop var o_out t_out i_out (i_in + 1) sin2 base.tail with
        | error e2 =>
          rw [hrec] at h
          have he2 : e2 = e := Except.error.inj h
          subst he2
          exact ih (i_in + 1) base.tail e2 hrec
        | ok pair =>
          rw [hrec] at h
          exact absurd h (by simp)

theorem buildPermutation_error_shape (m : RDDLModel) (var : String)
    (sign_in : List (String × String)) (outs : List (String × String)) :
    ∀ (i_out : Nat) (base : List (Option Nat)) (app dims : List Nat) (e : PyError),
      RDDLTensors.buildPermutation m var sign_in outs i_out base app dims = .error e →
      (∃ v p u1 u2, e = .typeMismatch v p u1 u2) ∨ (∃ k, e = .keyError k) := by
  induction outs with
  | nil =>
    intro i_out base app dims e h
    exact absurd h (by simp [RDDLTensors.buildPermutation])
  | cons hd outs2 ih =>
    intro i_out base app dims e h
    cases hd with
    | mk o_out t_out =>
      simp only [RDDLTensors.buildPermutation] at h
      cases hml : RDDLTensors.matchLoop var o_out t_out i_out 0 sign_in base with
      | error e2 =>
        rw [hml] at h
        have he2 : e2 = e := Except.error.inj h
        subst he2
        exact Or.inl (matchLoop_error_shape var o_out t_out i_out sign_in 0 base e2 hml)
      | ok pair =>
        rw [hml] at h
        obtain ⟨base2, nd⟩ := pair
        dsimp only at h
        cases nd with
        | true =>
          rw [if_pos rfl] at h
          cases hobj : PyDict.getKey m.objects t_out with
          | none =>
            rw [hobj] at h
            exact Or.inr ⟨t_out, (Except.error.inj h).symm⟩
          | some objs =>
            rw [hobj] at h
            exact ih (i_out + 1) base2 (app ++ [i_out]) (dims ++ [objs.length]) e h
        | false =>
          rw [if_neg (by simp)] at h
          exact ih (i_out + 1) base2 app dims e h

theorem shape_error_shape (m : RDDLModel) (types : List String) (e : PyError)
    (h : RDDLTensors.shape m types = .error e) : ∃ tt, e = .unknownType tt := by
  unfold RDDLTensors.shape at h
  cases hf : types.find? (fun t => (PyDict.getKey m.objects t).isNone) with
  | some t =>
    rw [hf] at h
    exact ⟨t, (Except.error.inj h).symm⟩
  | none =>
    rw [hf] at h
    exact absurd h (by simp)

theorem computeMapSpec_symbol_limit (m : RDDLModel) (var : String) (obj_in : List String)
    (sign_out : List (String × String)) (literals : List Nat) :
    (52 < sign_out.length →
      ∃ e, RDDLTensors.computeMapSpec m var obj_in sign_out literals = .error e
        ∧ PyError.pyClass e = "RDDLInvalidNumberOfArgumentsError")
    ∧ (sign_out.length ≤ 52 →
      ∀ v n, RDDLTensors.computeMapSpec m var obj_in sign_out literals
        ≠ .error (.tooManyArgs v n)) := by
  have hlen : RDDLTensors.VALID_SYMBOLS.toList.length = 52 := by decide
  constructor
  · intro hgt
    by_cases ha : obj_in.length ≠ ((PyDict.getKey m.param_types var).getD []).length
    · refine ⟨PyError.arity var ((PyDict.getKey m.param_types var).getD []).length
        obj_in.length, ?_, rfl⟩
      simp only [RDDLTensors.computeMapSpec]
      rw [if_pos ha]
    · refine ⟨PyError.tooManyArgs var sign_out.length, ?_, rfl⟩
      simp only [RDDLTensors.computeMapSpec]
      rw [if_neg ha, if_pos (by omega)]
  · intro hle v n h
    simp only [RDDLTensors.computeMapSpec] at h
    by_cases ha : obj_in.length ≠ ((PyDict.getKey m.param_types var).getD []).length
    · rw [if_pos ha] at h
      exact PyError.noConfusion (Except.error.inj h)
    · rw [if_neg ha, if_neg (by omega)] at h
      cases hbp : RDDLTensors.buildPermutation m var
          ((RDDLTensors.dropLits obj_in literals).zip
            (RDDLTensors.dropLits ((PyDict.getKey m.param_types var).getD []) literals))
          sign_out 0
          (List.replicate ((RDDLTensors.dropLits obj_in literals).zip
            (RDDLTensors.dropLits ((PyDict.getKey m.param_types var).getD []) literals)).length
            none) [] [] with
      | error e2 =>
        rw [hbp] at h
        have he2 : e2 = .tooManyArgs v n := Except.error.inj h
        rcases buildPermutation_error_shape m var _ sign_out 0 _ [] [] e2 hbp with
          ⟨v1, p1, u1, u2, hshape⟩ | ⟨k1, hshape⟩ <;>
          rw [hshape] at he2 <;> exact PyError.noConfusion he2
      | ok tricrumb =>
        rw [hbp] at h
        obtain ⟨base, app, dims⟩ := tricrumb
        dsimp only at h
        split at h
        · exact PyError.noConfusion (Except.error.inj h)
        · split at h
          · rename_i e3 heq
            have he3 : e3 = .tooManyArgs v n := Except.error.inj h
            rcases shape_error_shape m _ e3 heq with ⟨tt, hshape⟩
            rw [hshape] at he3
            exact PyError.noConfusion he3
          · exact Except.noConfusion h

theorem RDDLTensors.map_error_inv (t : RDDLTensors) (var : String) (obj_in : List String)
    (sign_out : List (String × String)) (literals : List Nat) (e : PyError)
    (h : RDDLTensors.map t var obj_in sign_out literals = .error e) :
    RDDLTensors.computeMapSpec t.rddl var obj_in sign_out literals = .error e := by
  cases hspec : RDDLTensors.computeMapSpec t.rddl var obj_in sign_out literals with
  | error e2 =>
    rw [RDDLTensors.map_eq_error t var obj_in sign_out literals e2 hspec] at h
    rw [Except.error.inj h]
  | ok s =>
    cases hc : PyDict.getKey t.cached_transforms (RDDLTensors.transformId s) with
    | some cached =>
      rw [RDDLTensors.map_eq_hit t var obj_in sign_out literals s cached hspec hc] at h
      exact absurd h (by simp)
    | none =>
      rw [RDDLTensors.map_eq_miss t var obj_in sign_out literals s hspec hc] at h
      exact absurd h (by simp)

/-- C9: a call to map whose desired output signature has more than the 52
supported axis symbols raises an RDDLInvalidNumberOfArgumentsError before
any transform is built or cached (either the arity check or the symbol
limit, both of that class); an output signature of at most 52 entries never
triggers the symbol-limit error. -/
theorem map_symbol_limit (t : RDDLTensors) (var : String) (obj_in : List String)
    (sign_out : List (String × String)) (literals : List Nat) :
    (52 < sign_out.length →
      ∃ e, RDDLTensors.map t var obj_in sign_out literals = .error e
        ∧ PyError.pyClass e = "RDDLInvalidNumberOfArgumentsError")
    ∧ (sign_out.length ≤ 52 →
      ∀ v n, RDDLTensors.map t var obj_in sign_out literals
        ≠ .error (.tooManyArgs v n)) := by
  obtain ⟨h1, h2⟩ := computeMapSpec_symbol_limit t.rddl var obj_in sign_out literals
  constructor
  · intro hgt
    obtain ⟨e, hspec, hclass⟩ := h1 hgt
    exact ⟨e, RDDLTensors.map_eq_error t var obj_in sign_out literals e hspec, hclass⟩
  · intro hle v n h
    exact h2 hle v n (RDDLTensors.map_error_inv t var obj_in sign_out literals _ h)

/-- Witness for C9: a call with a 53-entry output signature errors with
the invalid-number-of-arguments class, while the 2-entry C4 signature does
not trigger the symbol limit. -/
theorem map_symbol_limit_witness :
    (∃ e, RDDLTensors.map t4 "adj" ["?x", "?y"]
        (List.replicate 53 ("?y", "zone")) [] = .error e
      ∧ PyError.pyClass e = "RDDLInvalidNumberOfArgumentsError")
    ∧ (∀ v n, RDDLTensors.map t4 "adj" ["?x", "?y"]
        [("?y", "zone"), ("?x", "zone")] [] ≠ .error (.tooManyArgs v n)) :=
  ⟨(map_symbol_limit t4 "adj" ["?x", "?y"] (List.replicate 53 ("?y", "zone")) []).1
      (by decide),
   (map_symbol_limit t4 "adj" ["?x", "?y"] [("?y", "zone"), ("?x", "zone")] []).2
      (by decide)⟩

/-- A per-axis selector as produced by literal_slice: a fixed integer
index for a literal-bound axis, or slice(None) selecting the whole axis. -/
inductive SliceObj where
  | idx (i : Nat)
  | all
deriving DecidableEq, Inhabited

/-- The loop of RDDLTensors.literal_slice (lines 330-346): literals must be
known to objects_rev, must agree with the declared parameter type at their
position (else RDDLInvalidObjectError), and contribute their integer index
as selector plus their position to the literal set; free variables
contribute slice(None). -/
def RDDLTensors.literalSliceLoop (m : RDDLModel) (iob : List (String × Nat)) (var : String) :
    Nat → List String → List String → Except PyError (List SliceObj × List Nat)
  | _, [], _ => .ok ([], [])
  | i, pvar :: rest, tys =>
    if pvar ∈ m.enum_literals then
      match PyDict.getKey m.objects_rev pvar with
      | none => .error (.keyError pvar)
      | some enum_type =>
        if tys.headD "" ≠ enum_type then
          .error (.typeMismatch var (i + 1) (tys.headD "") enum_type)
        else
          match PyDict.getKey iob pvar with
          | none => .error (.keyError pvar)
          | some k =>
            match RDDLTensors.literalSliceLoop m iob var (i + 1) rest tys.tail with
            | .error e => .error e
            | .ok (sl, lits) => .ok (SliceObj.idx k :: sl, i :: lits)
    else
      match RDDLTensors.literalSliceLoop m iob var (i + 1) rest tys.tail with
      | .error e => .error e
      | .ok (sl, lits) => .ok (SliceObj.all :: sl, lits)

/-- Embeds RDDLTensors.literal_slice: arity check against the declared
parameter types, then the per-position selector loop; returns the selector
tuple and the set of literal positions. -/
def RDDLTensors.literal_slice (t : RDDLTensors) (var : String) (pvars : List String) :
    Except PyError (List SliceObj × List Nat) :=
  let types_in := (PyDict.getKey t.rddl.param_types var).getD []
  if pvars.length ≠ types_in.length then
    .error (.arity var types_in.length pvars.length)
  else RDDLTensors.literalSliceLoop t.rddl t.index_of_object var 0 pvars types_in

/-- Merges a selector tuple with an index into the sliced result to give
the index into the stored array (numpy basic indexing with ints and full
slices: int selectors consume no result coordinate, slices pass one
through). -/
def applySel : List SliceObj → List Nat → List Nat
  | [], _ => []
  | SliceObj.idx n :: rest, idx => n :: applySel rest idx
  | SliceObj.all :: rest, idx => idx.headD 0 :: applySel rest idx.tail

/-- Array semantics of a selector tuple. -/
def applySlices {V : Type} (sel : List SliceObj) (a : List Nat → V) : List Nat → V :=
  fun idx => a (applySel sel idx)

/-- There is a position whose invocation argument is an enum literal whose
type, per objects_rev, differs from the declared parameter type there. -/
def litMismatchAt (m : RDDLModel) : List String → List String → Bool
  | [], _ => false
  | _ :: _, [] => false
  | pvar :: rest, ty0 :: tys2 =>
    (decide (pvar ∈ m.enum_literals) &&
      (match PyDict.getKey m.objects_rev pvar with
       | some ty => decide (ty0 ≠ ty)
       | none => false))
    || litMismatchAt m rest tys2

theorem literalSliceLoop_mismatch (m : RDDLModel) (iob : List (String × Nat)) (var : String)
    (pvars : List String) :
    ∀ (tys : List String) (i0 : Nat),
      (∀ p ∈ pvars, p ∈ m.enum_literals →
        (PyDict.getKey m.objects_rev p).isSome ∧ (PyDict.getKey iob p).isSome) →
      litMismatchAt m pvars tys = true →
      ∃ v pos u1 u2, RDDLTensors.literalSliceLoop m iob var i0 pvars tys
        = .error (.typeMismatch v pos u1 u2) := by
  induction pvars with
  | nil =>
    intro tys i0 _ hmm
    simp [litMismatchAt] at hmm
  | cons pvar rest ih =>
    intro tys i0 hwf hmm
    cases tys with
    | nil => simp [litMismatchAt] at hmm
    | cons ty0 tys2 =>
      simp only [litMismatchAt, Bool.or_eq_true, Bool.and_eq_true, decide_eq_true_eq] at hmm
      have hwfrest : ∀ p ∈ rest, p ∈ m.enum_literals →
          (PyDict.getKey m.objects_rev p).isSome ∧ (PyDict.getKey iob p).isSome :=
        fun p hp => hwf p (List.mem_cons_of_mem pvar hp)
      by_cases hlit : pvar ∈ m.enum_literals
      · obtain ⟨hrev, hidx⟩ := hwf pvar (List.mem_cons_self pvar rest) hlit
        cases hgr : PyDict.getKey m.objects_rev pvar with
        | none => rw [hgr] at hrev; simp at hrev
        | some ty =>
          by_cases hty : ty0 ≠ ty
          · refine ⟨var, i0 + 1, ty0, ty, ?_⟩
            simp only [RDDLTensors.literalSliceLoop]
            rw [if_pos hlit, hgr]
            simp only [List.headD_cons]
            rw [if_pos hty]
          · have hrestm : litMismatchAt m rest tys2 = true := by
              rcases hmm with ⟨_, hbadmatch⟩ | hr
              · rw [hgr] at hbadmatch
                simp only [decide_eq_true_eq] at hbadmatch
                exact absurd hbadmatch hty
              · exact hr
            cases hi : PyDict.getKey iob pvar with
            | none => rw [hi] at hidx; simp at hidx
            | some k =>
              obtain ⟨v, pos, u1, u2, herr⟩ := ih tys2 (i0 + 1) hwfrest hrestm
              refine ⟨v, pos, u1, u2, ?_⟩
              simp only [RDDLTensors.literalSliceLoop]
              rw [if_pos hlit, hgr]
              simp only [List.headD_cons]
              rw [if_neg hty, hi]
              simp only [List.tail_cons]
              rw [herr]
      · have hrestm : litMismatchAt m rest tys2 = true := by
          rcases hmm with ⟨hl, _⟩ | hr
          · exact absurd hl hlit
          · exact hr
        obtain ⟨v, pos, u1, u2, herr⟩ := ih tys2 (i0 + 1) hwfrest hrestm
        refine ⟨v, pos, u1, u2, ?_⟩
        simp only [RDDLTensors.literalSliceLoop]
        rw [if_neg hlit]
        simp only [List.tail_cons]
        rw [herr]

/-- Concrete RDDLTensors over the witness model with pvariable
adjhz(h, zone) of shape (2, 3) and enum literal h1 at index 0. -/
def t6 : RDDLTensors := RDDLTensors.ofModel mWitness

/-- C6: invoking literal_slice for adjhz(h1, ?z), with h1 the literal at
index 0, returns the selector tuple (0, select-all) and literal-position
set containing exactly position 0; applying that selector tuple to the
stored (2,3) array gives the shape-(3,) row 0; and an invocation whose
literal has an enum type different from the declared parameter type at its
position fails with the RDDLInvalidObjectError type mismatch instead. -/
theorem literal_slice_example :
    RDDLTensors.literal_slice t6 "adjhz" ["h1", "?z"]
      = .ok ([SliceObj.idx 0, SliceObj.all], [0])
    ∧ (∀ (V : Type) (a : List Nat → V) (i : Nat),
        applySlices [SliceObj.idx 0, SliceObj.all] a [i] = a [0, i])
    ∧ (∀ (t : RDDLTensors) (var : String) (pvars : List String),
        (∀ p ∈ pvars, p ∈ t.rddl.enum_literals →
          (PyDict.getKey t.rddl.objects_rev p).isSome
          ∧ (PyDict.getKey t.index_of_object p).isSome) →
        pvars.length = ((PyDict.getKey t.rddl.param_types var).getD []).length →
        litMismatchAt t.rddl pvars ((PyDict.getKey t.rddl.param_types var).getD []) = true →
        ∃ v pos u1 u2, RDDLTensors.literal_slice t var pvars
          = .error (.typeMismatch v pos u1 u2)) := by
  refine ⟨by decide, fun V a i => rfl, ?_⟩
  intro t var pvars hwf hlen hmm
  obtain ⟨v, pos, u1, u2, herr⟩ :=
    literalSliceLoop_mismatch t.rddl t.index_of_object var pvars
      ((PyDict.getKey t.rddl.param_types var).getD []) 0 hwf hmm
  refine ⟨v, pos, u1, u2, ?_⟩
  simp only [RDDLTensors.literal_slice]
  rw [if_neg (by omega)]
  exact herr

/-- Witness for C6: the mismatch conjunct applied to the concrete
invocation adjhz(z1, ?z) whose literal z1 has type zone, not h. -/
theorem literal_slice_example_witness :
    ∃ v pos u1 u2, RDDLTensors.literal_slice t6 "adjhz" ["z1", "?z"]
      = .error (.typeMismatch v pos u1 u2) :=
  literal_slice_example.2.2 t6 "adjhz" ["z1", "?z"] (by decide) (by decide) (by decide)

/-- C8: over any sequence of declared initial values reaching the
enum-conversion loop of _compile_init_values (with the model data
well-formed), (a) if some entry declares, for an enum-ranged pvariable, a
value that is not a literal of that enum type, the construction fails with
an RDDLInvalidObjectError carrying that offending value and the expected
enum type (the first offender in iteration order); (b) if no entry
offends, the loop succeeds and every enum-ranged literal is stored as the
integer index of the literal while all other entries are unchanged. -/
theorem compile_init_values_enum_conversion
    (m : RDDLModel) (idx : List (String × Nat)) (vals : List (String × PyVal))
    (hwf : RDDLTensors.InitWF m idx vals) :
    ((∃ p ∈ vals, RDDLTensors.isEnumOffender m p.1 p.2 = true) →
      ∃ q ∈ vals, ∃ prange,
        RDDLTensors.isEnumOffender m q.1 q.2 = true
        ∧ PyDict.getKey m.variable_ranges (RDDLTensors.parseVarName q.1) = some prange
        ∧ prange ∈ m.enum_types
        ∧ RDDLTensors.convertEnumInit m idx vals = .error (.invalidLiteral q.2 prange))
    ∧ ((∀ p ∈ vals, RDDLTensors.isEnumOffender m p.1 p.2 = false) →
      RDDLTensors.convertEnumInit m idx vals =
        .ok (vals.map (fun p => (p.1, RDDLTensors.convSpecValue m idx p.1 p.2)))) := by
  induction vals with
  | nil =>
    refine ⟨?_, ?_⟩
    · rintro ⟨p, hp, _⟩; exact absurd hp (List.not_mem_nil p)
    · intro _; rfl
  | cons hd tl ih =>
    obtain ⟨hwf1, hwf2⟩ := hwf
    have hwftl : RDDLTensors.InitWF m idx tl :=
      ⟨fun p hp => hwf1 p (List.mem_cons_of_mem hd hp),
       fun p hp => hwf2 p (List.mem_cons_of_mem hd hp)⟩
    obtain ⟨ih1, ih2⟩ := ih hwftl
    refine ⟨?_, ?_⟩
    · rintro ⟨p, hp, hbad⟩
      by_cases hhd : RDDLTensors.isEnumOffender m hd.1 hd.2 = true
      · rcases RDDLTensors.convertEnumValue_offender m idx hd.1 hd.2 hhd with
          ⟨prange, hr, he, herr⟩
        refine ⟨hd, List.mem_cons_self hd tl, prange, hhd, hr, he, ?_⟩
        cases hd with
        | mk name v => simp only [RDDLTensors.convertEnumInit, herr]
      · have hhd0 : RDDLTensors.isEnumOffender m hd.1 hd.2 = false :=
          Bool.eq_false_iff.mpr hhd
        have hptl : p ∈ tl := by
          rcases List.mem_cons.mp hp with h | h
          · exact absurd hbad (by rw [h]; exact hhd)
          · exact h
        rcases ih1 ⟨p, hptl, hbad⟩ with ⟨q, hq, prange, hqb, hqr, hqe, hqerr⟩
        refine ⟨q, List.mem_cons_of_mem hd hq, prange, hqb, hqr, hqe, ?_⟩
        have hok := RDDLTensors.convertEnumValue_ok m idx hd.1 hd.2
          (hwf1 hd (List.mem_cons_self hd tl))
          (hwf2 hd (List.mem_cons_self hd tl)) hhd0
        cases hd with
        | mk name v => simp only [RDDLTensors.convertEnumInit, hok, hqerr]
    · intro hall
      have hok := RDDLTensors.convertEnumValue_ok m idx hd.1 hd.2
        (hwf1 hd (List.mem_cons_self hd tl))
        (hwf2 hd (List.mem_cons_self hd tl))
        (hall hd (List.mem_cons_self hd tl))
      have htl := ih2 (fun p hp => hall p (List.mem_cons_of_mem hd hp))
      cases hd with
      | mk name v => simp only [RDDLTensors.convertEnumInit, hok, htl, List.map]

/-- Concrete model for the C8 witness: variable e has enum range h,
variable b has range bool. -/
def mC8 : RDDLModel :=
  { objects := [("h", ["h1", "h2"])]
    objects_rev := [("h1", "h"), ("h2", "h")]
    enum_types := ["h"]
    enum_literals := ["h1", "h2"]
    param_types := [("e", []), ("b", [])]
    variable_ranges := [("e", "h"), ("b", "bool")]
    nonfluents := []
    init_state := [("e", some (.str "h2")), ("b", some (.bool true))]
    actions := [] }

/-- Witness for C8: on the concrete model a belonging literal h2 is stored
as its index 1 and the bool entry is untouched; and with the literal
replaced by one of the wrong type, construction fails with the
RDDLInvalidObjectError naming the literal and expected type. -/
theorem compile_init_values_enum_conversion_witness :
    RDDLTensors.convertEnumInit mC8 (RDDLTensors.compile_index_of_object mC8)
        (RDDLTensors.merged_init_values mC8)
      = .ok [("e", .int 1), ("b", .bool true)]
    ∧ RDDLTensors.convertEnumInit mC8 (RDDLTensors.compile_index_of_object mC8)
        [("e", .str "zzz"), ("b", .bool true)]
      = .error (.invalidLiteral (.str "zzz") "h") := by
  constructor
  · have h := (compile_init_values_enum_conversion mC8
      (RDDLTensors.compile_index_of_object mC8)
      (RDDLTensors.merged_init_values mC8) (by decide)).2 (by decide)
    rw [h]
    decide
  · decide

/-!
The compiled simulation engine: JaxRDDLSimulator.  Values produced by the
compiled jax functions and random-generator keys are abstract type
parameters V and K; each compiled callable has the contract
(store, key) -> (value, key, error-code).  Python bool(sample) is a field
truth of the simulator state, and jax-side grounding and error-message
decoding are function-valued fields read from external collaborators.
-/

/-- The simulator store: pvariable name to current value, a Python dict. -/
abbrev Store (V : Type) := List (String × V)

/-- A compiled invariant / precondition / termination / CPF / reward
function: (store, key) -> (sample, new key, error bitmask). -/
abbrev CompiledFn (V K : Type) := Store V → K → V × K × Nat

/-- The exceptions raised by the embedded simulator methods. -/
inductive SimError where
  | invalidExpression (msg : String) (errors : List String)
  | stateInvariantNotSatisfied (index : Nat)
  | actionPreconditionNotSatisfied (index : Nat)
  | unknownAction (name : String)
deriving DecidableEq, Inhabited

/-- The mutable attributes of a JaxRDDLSimulator instance set in __init__,
together with the function-valued collaborators it reads:
truth models Python bool() on compiled sample values,
ground_values models rddl.ground_values (external lifted model), and
get_error_messages models JaxRDDLCompiler.get_error_messages. -/
structure Simulator (V K : Type) where
  truth : V → Bool
  ground_values : String → V → List (String × V)
  get_error_messages : Nat → List String
  key : K
  raise_error : Bool
  invariants : List (CompiledFn V K)
  preconds : List (CompiledFn V K)
  terminals : List (CompiledFn V K)
  reward : CompiledFn V K
  cpfs : List (String × CompiledFn V K)
  levels : List (List String)
  subs : Store V
  state : Option (Store V)
  noop_actions : Store V
  next_states : List (String × String)
  observ_fluents : List String
  pomdp : Bool

/-- The Python default of the raise_error parameter of
JaxRDDLSimulator.__init__ (line 22): False. -/
def RAISE_ERROR_DEFAULT : Bool := false

/-- The artifacts __init__ obtains from the external JaxRDDLCompiler. -/
structure CompiledArtifacts (V K : Type) where
  init_values : Store V
  invariants : List (CompiledFn V K)
  preconditions : List (CompiledFn V K)
  termination : List (CompiledFn V K)
  reward : CompiledFn V K
  cpfs : List (String × CompiledFn V K)
  levels : List (List String)
  next_states : List (String × String)

namespace JaxRDDLSimulator

/-- Embeds JaxRDDLSimulator.__init__ (lines 20-53): stores the key and the
raise_error flag, copies the compiled artifacts, initializes the store from
init_values, records the action fluents (the no-op defaults), the
observation fluents and the POMDP flag.  variable_types models
rddl.variable_types of the external lifted model. -/
def init {V K : Type} (truth : V → Bool)
    (ground_values : String → V → List (String × V))
    (get_error_messages : Nat → List String)
    (variable_types : List (String × String))
    (compiled : CompiledArtifacts V K) (key : K) (raise_error : Bool) : Simulator V K :=
  { truth := truth
    ground_values := ground_values
    get_error_messages := get_error_messages
    key := key
    raise_error := raise_error
    invariants := compiled.invariants
    preconds := compiled.preconditions
    terminals := compiled.termination
    reward := compiled.reward
    cpfs := compiled.cpfs
    levels := compiled.levels
    subs := compiled.init_values
    state := none
    noop_actions := compiled.init_values.filter
      (fun kv => PyDict.getKey variable_types kv.1 == some "action-fluent")
    next_states := compiled.next_states
    observ_fluents := (variable_types.filter (fun kv => kv.2 == "observ-fluent")).map
      (fun kv => kv.1)
    pomdp := !((variable_types.filter (fun kv => kv.2 == "observ-fluent")).map
      (fun kv => kv.1)).isEmpty }

/-- Construction without explicitly choosing an error mode: the Python
call omits raise_error, so the default False from line 22 applies. -/
def initDefault {V K : Type} (truth : V → Bool)
    (ground_values : String → V → List (String × V))
    (get_error_messages : Nat → List String)
    (variable_types : List (String × String))
    (compiled : CompiledArtifacts V K) (key : K) : Simulator V K :=
  init truth ground_values get_error_messages variable_types compiled key
    RAISE_ERROR_DEFAULT

/-- Embeds JaxRDDLSimulator.handle_error_code (lines 55-61): only when
raise_error is set are the error messages decoded, and a nonempty decode
raises RDDLInvalidExpressionError; otherwise the code is ignored. -/
def handle_error_code {V K : Type} (sim : Simulator V K) (error : Nat) (msg : String) :
    Option SimError :=
  if sim.raise_error then
    if (sim.get_error_messages error).isEmpty then none
    else some (SimError.invalidExpression msg (sim.get_error_messages error))
  else none

/-- Modelled from the spec: RDDLSimulator._process_actions lives in the
base class RDDLSimulator, which is not under src/.  Per the spec (section
4.5), it rejects actions not declared as action-fluents with an
unknown-action error before merging, and merges the supplied actions over
the no-op defaults so missing action-fluents keep their no-op value. -/
def process_actions {V K : Type} (sim : Simulator V K) (actions : Store V) :
    Except SimError (Store V) :=
  match actions.find? (fun kv => (PyDict.getKey sim.noop_actions kv.1).isNone) with
  | some kv => .error (.unknownAction kv.1)
  | none => .ok (PyDict.updAll sim.noop_actions actions)

/-- The loop of check_state_invariants (lines 65-70): each compiled
invariant is evaluated on the current store, the returned key replaces
self.key before the error code is handled, and a false sample raises
naming the 1-based invariant index. -/
def invariantLoop {V K : Type} :
    List (CompiledFn V K) → Nat → Simulator V K → Simulator V K × Option SimError
  | [], _, sim => (sim, none)
  | inv :: rest, i, sim =>
    let r := inv sim.subs sim.key
    let sim1 := { sim with key := r.2.1 }
    match handle_error_code sim1 r.2.2 ("invariant " ++ toString (i + 1)) with
    | some e => (sim1, some e)
    | none =>
      if sim1.truth r.1 then invariantLoop rest (i + 1) sim1
      else (sim1, some (SimError.stateInvariantNotSatisfied (i + 1)))

/-- Embeds JaxRDDLSimulator.check_state_invariants. -/
def check_state_invariants {V K : Type} (sim : Simulator V K) :
    Simulator V K × Option SimError :=
  invariantLoop sim.invariants 0 sim

/-- The loop of check_action_preconditions (lines 78-83), identical in
structure to the invariant loop but raising the precondition error. -/
def precondLoop {V K : Type} :
    List (CompiledFn V K) → Nat → Simulator V K → Simulator V K × Option SimError
  | [], _, sim => (sim, none)
  | pre :: rest, i, sim =>
    let r := pre sim.subs sim.key
    let sim1 := { sim with key := r.2.1 }
    match handle_error_code sim1 r.2.2 ("precondition " ++ toString (i + 1)) with
    | some e => (sim1, some e)
    | none =>
      if sim1.truth r.1 then precondLoop rest (i + 1) sim1
      else (sim1, some (SimError.actionPreconditionNotSatisfied (i + 1)))

/-- Embeds JaxRDDLSimulator.check_action_preconditions (lines 72-83): the
processed actions are update-d into self.subs in place (subs is an alias of
self.subs on line 75), then every precondition is evaluated against the
merged store. -/
def check_action_preconditions {V K : Type} (sim : Simulator V K) (actions : Store V) :
    Simulator V K × Option SimError :=
  match process_actions sim actions with
  | .error e => (sim, some e)
  | .ok acts =>
    let sim1 := { sim with subs := PyDict.updAll sim.subs acts }
    precondLoop sim1.preconds 0 sim1

/-- The loop of check_terminal_states (lines 87-92): returns true at the
first satisfied termination condition, false when none is. -/
def terminalLoop {V K : Type} :
    List (CompiledFn V K) → Nat → Simulator V K → Simulator V K × Except SimError Bool
  | [], _, sim => (sim, .ok false)
  | term :: rest, i, sim =>
    let r := term sim.subs sim.key
    let sim1 := { sim with key := r.2.1 }
    match handle_error_code sim1 r.2.2 ("termination " ++ toString (i + 1)) with
    | some e => (sim1, .error e)
    | none =>
      if sim1.truth r.1 then (sim1, .ok true)
      else terminalLoop rest (i + 1) sim1

/-- Embeds JaxRDDLSimulator.check_terminal_states. -/
def check_terminal_states {V K : Type} (sim : Simulator V K) :
    Simulator V K × Except SimError Bool :=
  terminalLoop sim.terminals 0 sim

/-- Embeds JaxRDDLSimulator.sample_reward (lines 94-98); the float()
conversion is the identity in the abstract value type. -/
def sample_reward {V K : Type} (sim : Simulator V K) :
    Simulator V K × Except SimError V :=
  let r := sim.reward sim.subs sim.key
  let sim1 := { sim with key := r.2.1 }
  match handle_error_code sim1 r.2.2 "reward function" with
  | some e => (sim1, .error e)
  | none => (sim1, .ok r.1)

end JaxRDDLSimulator

namespace JaxRDDLSimulator

/-- Inner CPF loop of step (lines 111-113): each CPF of the level writes
its sample into subs under its own name and threads the key, then the
error code is handled.  A CPF name missing from the table would be a
Python KeyError; the default function models that branch away and is never
reached for the compiled levels the compiler supplies. -/
def cpfLoop {V K : Type} [Inhabited V] :
    List String → Simulator V K → Simulator V K × Option SimError
  | [], sim => (sim, none)
  | name :: rest, sim =>
    let fn := (PyDict.getKey sim.cpfs name).getD (fun _ k => (default, k, 0))
    let r := fn sim.subs sim.key
    let sim1 := { sim with subs := PyDict.setKey sim.subs name r.1, key := r.2.1 }
    match handle_error_code sim1 r.2.2 ("CPF " ++ name) with
    | some e => (sim1, some e)
    | none => cpfLoop rest sim1

/-- Outer loop of step over the Levels in topological order (line 110). -/
def levelLoop {V K : Type} [Inhabited V] :
    List (List String) → Simulator V K → Simulator V K × Option SimError
  | [], sim => (sim, none)
  | lvl :: rest, sim =>
    match cpfLoop lvl sim with
    | (sim1, some e) => (sim1, some e)
    | (sim1, none) => levelLoop rest sim1

/-- State update loop of step (lines 119-122): copy each next-state value
onto its state fluent and expand it into the grounded state dict. -/
def stateLoop {V K : Type} [Inhabited V] :
    List (String × String) → Simulator V K → Store V → Simulator V K × Store V
  | [], sim, st => (sim, st)
  | (next_state, state) :: rest, sim, st =>
    let v := (PyDict.getKey sim.subs next_state).getD default
    let sim1 := { sim with subs := PyDict.setKey sim.subs state v }
    stateLoop rest sim1 (PyDict.updAll st (sim1.ground_values state v))

/-- Observation loop of step in POMDP mode (lines 126-128). -/
def obsLoop {V K : Type} [Inhabited V] :
    List String → Simulator V K → Store V → Store V
  | [], _, obs => obs
  | var :: rest, sim, obs =>
    obsLoop rest sim (PyDict.updAll obs
      (sim.ground_values var ((PyDict.getKey sim.subs var).getD default)))

/-- Embeds JaxRDDLSimulator.step (lines 100-133): merge the processed
actions into the store in place, evaluate the CPF levels, sample the
reward, copy next-state values and build the grounded state, choose the
observation (grounded observ-fluents in POMDP mode, the state otherwise),
evaluate termination, and return (observation, reward, done). -/
def step {V K : Type} [Inhabited V] (sim : Simulator V K) (actions : Store V) :
    Simulator V K × Except SimError (Store V × V × Bool) :=
  match process_actions sim actions with
  | .error e => (sim, .error e)
  | .ok acts =>
    let sim1 := { sim with subs := PyDict.updAll sim.subs acts }
    match levelLoop sim1.levels sim1 with
    | (sim2, some e) => (sim2, .error e)
    | (sim2, none) =>
      match sample_reward sim2 with
      | (sim3, .error e) => (sim3, .error e)
      | (sim3, .ok reward) =>
        match stateLoop sim3.next_states sim3 [] with
        | (sim4, st) =>
          let sim5 := { sim4 with state := some st }
          let obs := if sim5.pomdp then obsLoop sim5.observ_fluents sim5 [] else st
          match check_terminal_states sim5 with
          | (sim6, .error e) => (sim6, .error e)
          | (sim6, .ok done) => (sim6, .ok (obs, reward, done))

/-- Runs step over a sequence of action mappings, collecting each step's
outcome ((observation, reward, done) or the raised error). -/
def runSteps {V K : Type} [Inhabited V] :
    Simulator V K → List (Store V) → List (Except SimError (Store V × V × Bool))
  | _, [] => []
  | sim, acts :: rest =>
    let r := step sim acts
    r.2 :: runSteps r.1 rest

end JaxRDDLSimulator

/-- The simulator after the call equals the simulator before except
possibly at the random-generator key. -/
def AgreesExceptKey {V K : Type} (a b : Simulator V K) : Prop :=
  a = { b with key := a.key }

/-- The simulator after the call equals the simulator before except
possibly at the key and the store. -/
def AgreesExceptKeySubs {V K : Type} (a b : Simulator V K) : Prop :=
  a = { b with key := a.key, subs := a.subs }

theorem invariantLoop_frame {V K : Type} (fns : List (CompiledFn V K)) :
    ∀ (i : Nat) (sim : Simulator V K),
      AgreesExceptKey (JaxRDDLSimulator.invariantLoop fns i sim).1 sim
      ∧ ((JaxRDDLSimulator.invariantLoop fns i sim).2 = none →
          (JaxRDDLSimulator.invariantLoop fns i sim).1.key
            = fns.foldl (fun k f => (f sim.subs k).2.1) sim.key) := by
  induction fns with
  | nil => intro i sim; exact ⟨rfl, fun _ => rfl⟩
  | cons inv rest ih =>
    intro i sim
    have hunfold : JaxRDDLSimulator.invariantLoop (inv :: rest) i sim =
        (match JaxRDDLSimulator.handle_error_code
            { sim with key := (inv sim.subs sim.key).2.1 }
            (inv sim.subs sim.key).2.2 ("invariant " ++ toString (i + 1)) with
        | some e => ({ sim with key := (inv sim.subs sim.key).2.1 }, some e)
        | none =>
          if sim.truth (inv sim.subs sim.key).1
          then JaxRDDLSimulator.invariantLoop rest (i + 1)
            { sim with key := (inv sim.subs sim.key).2.1 }
          else ({ sim with key := (inv sim.subs sim.key).2.1 },
            some (SimError.stateInvariantNotSatisfied (i + 1)))) := rfl
    rw [hunfold]
    cases hh : JaxRDDLSimulator.handle_error_code
        { sim with key := (inv sim.subs sim.key).2.1 }
        (inv sim.subs sim.key).2.2 ("invariant " ++ toString (i + 1)) with
    | some e => exact ⟨rfl, fun hcon => absurd hcon (by simp)⟩
    | none =>
      cases htr : sim.truth (inv sim.subs sim.key).1 with
      | false => exact ⟨rfl, fun hcon => absurd hcon (by simp)⟩
      | true =>
        obtain ⟨ha, hk⟩ := ih (i + 1) { sim with key := (inv sim.subs sim.key).2.1 }
        exact ⟨ha, fun h2 => hk h2⟩

theorem precondLoop_frame {V K : Type} (fns : List (CompiledFn V K)) :
    ∀ (i : Nat) (sim : Simulator V K),
      AgreesExceptKey (JaxRDDLSimulator.precondLoop fns i sim).1 sim
      ∧ ((JaxRDDLSimulator.precondLoop fns i sim).2 = none →
          (JaxRDDLSimulator.precondLoop fns i sim).1.key
            = fns.foldl (fun k f => (f sim.subs k).2.1) sim.key) := by
  induction fns with
  | nil => intro i sim; exact ⟨rfl, fun _ => rfl⟩
  | cons pre rest ih =>
    intro i sim
    have hunfold : JaxRDDLSimulator.precondLoop (pre :: rest) i sim =
        (match JaxRDDLSimulator.handle_error_code
            { sim with key := (pre sim.subs sim.key).2.1 }
            (pre sim.subs sim.key).2.2 ("precondition " ++ toString (i + 1)) with
        | some e => ({ sim with key := (pre sim.subs sim.key).2.1 }, some e)
        | none =>
          if sim.truth (pre sim.subs sim.key).1
          then JaxRDDLSimulator.precondLoop rest (i + 1)
            { sim with key := (pre sim.subs sim.key).2.1 }
          else ({ sim with key := (pre sim.subs sim.key).2.1 },
            some (SimError.actionPreconditionNotSatisfied (i + 1)))) := rfl
    rw [hunfold]
    cases hh : JaxRDDLSimulator.handle_error_code
        { sim with key := (pre sim.subs sim.key).2.1 }
        (pre sim.subs sim.key).2.2 ("precondition " ++ toString (i + 1)) with
    | some e => exact ⟨rfl, fun hcon => absurd hcon (by simp)⟩
    | none =>
      cases htr : sim.truth (pre sim.subs sim.key).1 with
      | false => exact ⟨rfl, fun hcon => absurd hcon (by simp)⟩
      | true =>
        obtain ⟨ha, hk⟩ := ih (i + 1) { sim with key := (pre sim.subs sim.key).2.1 }
        exact ⟨ha, fun h2 => hk h2⟩

theorem terminalLoop_frame {V K : Type} (fns : List (CompiledFn V K)) :
    ∀ (i : Nat) (sim : Simulator V K),
      AgreesExceptKey (JaxRDDLSimulator.terminalLoop fns i sim).1 sim
      ∧ ((JaxRDDLSimulator.terminalLoop fns i sim).2 = .ok false →
          (JaxRDDLSimulator.terminalLoop fns i sim).1.key
            = fns.foldl (fun k f => (f sim.subs k).2.1) sim.key) := by
  induction fns with
  | nil => intro i sim; exact ⟨rfl, fun _ => rfl⟩
  | cons term rest ih =>
    intro i sim
    have hunfold : JaxRDDLSimulator.terminalLoop (term :: rest) i sim =
        (match JaxRDDLSimulator.handle_error_code
            { sim with key := (term sim.subs sim.key).2.1 }
            (term sim.subs sim.key).2.2 ("termination " ++ toString (i + 1)) with
        | some e => ({ sim with key := (term sim.subs sim.key).2.1 }, .error e)
        | none =>
          if sim.truth (term sim.subs sim.key).1
          then ({ sim with key := (term sim.subs sim.key).2.1 }, .ok true)
          else JaxRDDLSimulator.terminalLoop rest (i + 1)
            { sim with key := (term sim.subs sim.key).2.1 }) := rfl
    rw [hunfold]
    cases hh : JaxRDDLSimulator.handle_error_code
        { sim with key := (term sim.subs sim.key).2.1 }
        (term sim.subs sim.key).2.2 ("termination " ++ toString (i + 1)) with
    | some e => exact ⟨rfl, fun hcon => absurd hcon (by simp)⟩
    | none =>
      cases htr : sim.truth (term sim.subs sim.key).1 with
      | true => exact ⟨rfl, fun hcon => absurd hcon (by simp)⟩
      | false =>
        obtain ⟨ha, hk⟩ := ih (i + 1) { sim with key := (term sim.subs sim.key).2.1 }
        exact ⟨ha, fun h2 => hk h2⟩

/-- C10: check_state_invariants, check_terminal_states and
check_action_preconditions each replace self.key with the key threaded
through every compiled function they evaluate (shown as the left fold of
the evaluated functions when every check passes), and modify no other
field: the state-invariant and termination checks leave everything but the
key unchanged, and the precondition check additionally changes only the
store, where entries that are neither action fluents nor supplied actions
keep their value. -/
theorem query_methods_frame {V K : Type} (sim : Simulator V K) :
    (AgreesExceptKey (JaxRDDLSimulator.check_state_invariants sim).1 sim
      ∧ ((JaxRDDLSimulator.check_state_invariants sim).2 = none →
          (JaxRDDLSimulator.check_state_invariants sim).1.key
            = sim.invariants.foldl (fun k f => (f sim.subs k).2.1) sim.key))
    ∧ (AgreesExceptKey (JaxRDDLSimulator.check_terminal_states sim).1 sim
      ∧ ((JaxRDDLSimulator.check_terminal_states sim).2 = .ok false →
          (JaxRDDLSimulator.check_terminal_states sim).1.key
            = sim.terminals.foldl (fun k f => (f sim.subs k).2.1) sim.key))
    ∧ (∀ actions : Store V,
        AgreesExceptKeySubs (JaxRDDLSimulator.check_action_preconditions sim actions).1 sim
        ∧ (∀ name, PyDict.getKey sim.noop_actions name = none →
            PyDict.getKey actions name = none →
            PyDict.getKey (JaxRDDLSimulator.check_action_preconditions sim actions).1.subs
              name = PyDict.getKey sim.subs name)
        ∧ (∀ acts, JaxRDDLSimulator.process_actions sim actions = .ok acts →
            (JaxRDDLSimulator.check_action_preconditions sim actions).2 = none →
            (JaxRDDLSimulator.check_action_preconditions sim actions).1.key
              = sim.preconds.foldl
                  (fun k f => (f (PyDict.updAll sim.subs acts) k).2.1) sim.key)) := by
  refine ⟨?_, ?_, ?_⟩
  · obtain ⟨ha, hk⟩ := invariantLoop_frame sim.invariants 0 sim
    exact ⟨ha, hk⟩
  · obtain ⟨ha, hk⟩ := terminalLoop_frame sim.terminals 0 sim
    exact ⟨ha, hk⟩
  · intro actions
    cases hp : JaxRDDLSimulator.process_actions sim actions with
    | error e =>
      have hunfold : JaxRDDLSimulator.check_action_preconditions sim actions
          = (sim, some e) := by
        unfold JaxRDDLSimulator.check_action_preconditions
        rw [hp]
      rw [hunfold]
      exact ⟨rfl, fun name _ _ => rfl, fun acts hacts _ => absurd hacts (by simp)⟩
    | ok acts0 =>
      have hunfold : JaxRDDLSimulator.check_action_preconditions sim actions
          = JaxRDDLSimulator.precondLoop sim.preconds 0
              { sim with subs := PyDict.updAll sim.subs acts0 } := by
        unfold JaxRDDLSimulator.check_action_preconditions
        rw [hp]
      rw [hunfold]
      obtain ⟨ha, hk⟩ := precondLoop_frame sim.preconds 0
        { sim with subs := PyDict.updAll sim.subs acts0 }
      have hsubs0 : (JaxRDDLSimulator.precondLoop sim.preconds 0
          { sim with subs := PyDict.updAll sim.subs acts0 }).1.subs
            = PyDict.updAll sim.subs acts0 :=
        congrArg Simulator.subs ha
      refine ⟨?_, ?_, ?_⟩
      · show (JaxRDDLSimulator.precondLoop sim.preconds 0
            { sim with subs := PyDict.updAll sim.subs acts0 }).1
          = { sim with
              key := (JaxRDDLSimulator.precondLoop sim.preconds 0
                { sim with subs := PyDict.updAll sim.subs acts0 }).1.key
              subs := (JaxRDDLSimulator.precondLoop sim.preconds 0
                { sim with subs := PyDict.updAll sim.subs acts0 }).1.subs }
        rw [hsubs0]
        exact ha
      · intro name hnoop hact
        rw [hsubs0]
        have hacts0 : PyDict.getKey acts0 name = none := by
          have : acts0 = PyDict.updAll sim.noop_actions actions := by
            unfold JaxRDDLSimulator.process_actions at hp
            cases hf : actions.find?
                (fun kv => (PyDict.getKey sim.noop_actions kv.1).isNone) with
            | some kv => rw [hf] at hp; exact absurd hp (by simp)
            | none =>
              rw [hf] at hp
              exact (Except.ok.inj hp).symm
          rw [this]
          exact PyDict.getKey_updAll_none actions sim.noop_actions name hact hnoop
        exact PyDict.getKey_updAll_notin acts0 sim.subs name hacts0
      · intro acts hacts hnone
        have hae : acts = acts0 := (Except.ok.inj hacts).symm
        subst hae
        exact hk hnone

/-- A concrete simulator over Int values and Nat keys exercising a failing
precondition: the store holds a state fluent s and the action fluent a
with no-op value 0; the single precondition always returns false. -/
def csim1 : Simulator Int Nat :=
  { truth := fun v => decide (v ≠ 0)
    ground_values := fun n v => [(n, v)]
    get_error_messages := fun e => if e = 0 then [] else ["divide by zero"]
    key := 0
    raise_error := RAISE_ERROR_DEFAULT
    invariants := []
    preconds := [fun _ k => (0, k + 1, 0)]
    terminals := []
    reward := fun _ k => (0, k, 0)
    cpfs := []
    levels := []
    subs := [("a", 0), ("s", 5)]
    state := none
    noop_actions := [("a", 0)]
    next_states := []
    observ_fluents := []
    pomdp := false }

/-- C1 as stated is violated by the code (code bug): on line 75-76, subs is
an alias of self.subs, so update(actions) permanently commits the candidate
actions; after the failed precondition check the store holds action a = 1
although the call raised, so the store is not as it was before the call. -/
theorem check_action_preconditions_commits_on_failure :
    (JaxRDDLSimulator.check_action_preconditions csim1 [("a", 1)]).2
      = some (SimError.actionPreconditionNotSatisfied 1)
    ∧ (JaxRDDLSimulator.check_action_preconditions csim1 [("a", 1)]).1.subs
      = [("a", 1), ("s", 5)]
    ∧ csim1.subs = [("a", 0), ("s", 5)]
    ∧ (JaxRDDLSimulator.check_action_preconditions csim1 [("a", 1)]).1.subs
      ≠ csim1.subs := by
  exact ⟨rfl, rfl, rfl, by decide⟩

/-- A concrete simulator with one passing invariant (key advances by 5),
one passing precondition, one CPF and a next-state pairing, used by the
determinism and frame witnesses. -/
def csim3 : Simulator Int Nat :=
  { truth := fun v => decide (v ≠ 0)
    ground_values := fun n v => [(n, v)]
    get_error_messages := fun e => if e = 0 then [] else ["invalid cast"]
    key := 0
    raise_error := RAISE_ERROR_DEFAULT
    invariants := [fun _ k => (1, k + 5, 0)]
    preconds := [fun _ k => (1, k + 1, 0)]
    terminals := []
    reward := fun s k => ((PyDict.getKey s "s").getD 0, k + 3, 0)
    cpfs := [("sp", fun s k => ((PyDict.getKey s "s").getD 0 + 1, k + 1, 0))]
    levels := [["sp"]]
    subs := [("s", 0), ("a", 0), ("sp", 0)]
    state := none
    noop_actions := [("a", 0)]
    next_states := [("sp", "s")]
    observ_fluents := []
    pomdp := false }

/-- Witness for C10: on the concrete simulator the passing invariant check
leaves the store untouched and replaces the key with the folded key 5. -/
theorem query_methods_frame_witness :
    (JaxRDDLSimulator.check_state_invariants csim3).1.subs = csim3.subs
    ∧ (JaxRDDLSimulator.check_state_invariants csim3).1.key
        = csim3.invariants.foldl (fun k f => (f csim3.subs k).2.1) csim3.key := by
  obtain ⟨⟨ha, hk⟩, _, _⟩ := query_methods_frame csim3
  have ha2 : (JaxRDDLSimulator.check_state_invariants csim3).1
      = { csim3 with key := (JaxRDDLSimulator.check_state_invariants csim3).1.key } := ha
  have hsubs : (JaxRDDLSimulator.check_state_invariants csim3).1.subs = csim3.subs := by
    conv_lhs => rw [ha2]
  exact ⟨hsubs, hk (by decide)⟩

/-- A concrete simulator whose action fluent a (no-op value 0) holds the
value 7 committed by an earlier step, with a single passing
precondition. -/
def csimC10 : Simulator Int Nat :=
  { truth := fun v => decide (v ≠ 0)
    ground_values := fun n v => [(n, v)]
    get_error_messages := fun e => if e = 0 then [] else ["invalid cast"]
    key := 0
    raise_error := RAISE_ERROR_DEFAULT
    invariants := []
    preconds := [fun _ k => (1, k + 1, 0)]
    terminals := []
    reward := fun _ k => (0, k, 0)
    cpfs := []
    levels := []
    subs := [("a", 7), ("s", 5)]
    state := none
    noop_actions := [("a", 0)]
    next_states := []
    observ_fluents := []
    pomdp := false }

/-- Counterexample to C10 as stated: check_action_preconditions called
with an empty actions mapping, so that no store entry belongs to a
supplied action, still modifies the store entry of the unsupplied action
fluent a, resetting its value 7 to the no-op 0: the no-op merge of
_process_actions covers every action fluent and the merge is committed to
self.subs, so more than the supplied-action entries change. -/
theorem query_methods_frame_counterexample :
    PyDict.getKey ([] : Store Int) "a" = none
    ∧ PyDict.getKey csimC10.subs "a" = some 7
    ∧ (JaxRDDLSimulator.check_action_preconditions csimC10 []).2 = none
    ∧ PyDict.getKey
        (JaxRDDLSimulator.check_action_preconditions csimC10 []).1.subs "a" = some 0 :=
  ⟨rfl, rfl, rfl, rfl⟩

/-- Compiled artifacts for the C2 counterexample: a single invariant that
passes but reports the nonzero error code 7. -/
def artC2 : CompiledArtifacts Int Nat :=
  { init_values := []
    invariants := [fun _ k => (1, k + 1, 7)]
    preconditions := []
    termination := []
    reward := fun _ k => (0, k, 0)
    cpfs := []
    levels := []
    next_states := [] }

/-- The error decoder of the C2 counterexample: code 0 decodes to no
messages, every other code decodes to one message. -/
def decodeC2 : Nat → List String := fun e => if e = 0 then [] else ["invalid cast"]

/-- A simulator constructed without explicitly choosing an error mode. -/
def simC2 : Simulator Int Nat :=
  JaxRDDLSimulator.initDefault (fun v => decide (v ≠ 0)) (fun n v => [(n, v)])
    decodeC2 [] artC2 0

/-- Counterexample to C2: a simulator constructed without explicitly
choosing a mode has raise_error False, and an invariant evaluation whose
error code 7 decodes to a message raises nothing: the code is ignored,
not decoded and raised as an evaluation error. -/
theorem relaxed_mode_default_counterexample :
    simC2.get_error_messages 7 = ["invalid cast"]
    ∧ simC2.raise_error = false
    ∧ JaxRDDLSimulator.handle_error_code simC2 7 "invariant 1" = none
    ∧ (JaxRDDLSimulator.check_state_invariants simC2).2 = none :=
  ⟨rfl, rfl, rfl, rfl⟩

/-- C2 amended: the relaxed mode is the default, not the explicitly
selected option: a simulator constructed without choosing a mode has
raise_error False and ignores every runtime error code; error codes are
decoded and raised as an RDDLInvalidExpressionError exactly when the
caller explicitly selects raise_error and the code decodes to messages. -/
theorem relaxed_mode_default_amended {V K : Type} (truth : V → Bool)
    (gv : String → V → List (String × V)) (decode : Nat → List String)
    (vt : List (String × String)) (compiled : CompiledArtifacts V K) (key : K) :
    (JaxRDDLSimulator.initDefault truth gv decode vt compiled key).raise_error = false
    ∧ (∀ (sim : Simulator V K) (e : Nat) (msg : String), sim.raise_error = false →
        JaxRDDLSimulator.handle_error_code sim e msg = none)
    ∧ (∀ (sim : Simulator V K) (e : Nat) (msg : String), sim.raise_error = true →
        sim.get_error_messages e ≠ [] →
        JaxRDDLSimulator.handle_error_code sim e msg
          = some (SimError.invalidExpression msg (sim.get_error_messages e))) := by
  refine ⟨rfl, ?_, ?_⟩
  · intro sim e msg h
    unfold JaxRDDLSimulator.handle_error_code
    rw [h]
    rfl
  · intro sim e msg h hne
    have hemp : (sim.get_error_messages e).isEmpty = false := by
      cases hl : sim.get_error_messages e with
      | nil => exact absurd hl hne
      | cons x xs => rfl
    unfold JaxRDDLSimulator.handle_error_code
    rw [h, hemp]
    rfl

/-- Witness for the amended C2: the default-constructed simulator ignores
error code 7, and the same simulator with raise_error selected raises the
decoded message. -/
theorem relaxed_mode_default_amended_witness :
    simC2.raise_error = false
    ∧ JaxRDDLSimulator.handle_error_code simC2 7 "invariant 1" = none
    ∧ JaxRDDLSimulator.handle_error_code { simC2 with raise_error := true } 7 "invariant 1"
        = some (SimError.invalidExpression "invariant 1" ["invalid cast"]) := by
  obtain ⟨h1, h2, h3⟩ := relaxed_mode_default_amended (fun v : Int => decide (v ≠ 0))
    (fun n v => [(n, v)]) decodeC2 [] artC2 (0 : Nat)
  exact ⟨h1, h2 simC2 7 "invariant 1" rfl,
    h3 { simC2 with raise_error := true } 7 "invariant 1" rfl (by decide)⟩

/-- C3: two runs of the simulator from the same random-generator key, the
same store and the same compiled artifacts, applying the same sequence of
action mappings through step, produce identical sequences of
(observation, reward, done) outcomes: the embedded engine threads all
randomness through the explicit key, so trajectories are a pure function
of the initial simulator state and the action sequence. -/
theorem step_trajectory_deterministic {V K : Type} [Inhabited V]
    (sim1 sim2 : Simulator V K)
    (htruth : sim1.truth = sim2.truth)
    (hgv : sim1.ground_values = sim2.ground_values)
    (hdec : sim1.get_error_messages = sim2.get_error_messages)
    (hkey : sim1.key = sim2.key)
    (hre : sim1.raise_error = sim2.raise_error)
    (hinv : sim1.invariants = sim2.invariants)
    (hpre : sim1.preconds = sim2.preconds)
    (hterm : sim1.terminals = sim2.terminals)
    (hrew : sim1.reward = sim2.reward)
    (hcpfs : sim1.cpfs = sim2.cpfs)
    (hlev : sim1.levels = sim2.levels)
    (hsubs : sim1.subs = sim2.subs)
    (hstate : sim1.state = sim2.state)
    (hnoop : sim1.noop_actions = sim2.noop_actions)
    (hns : sim1.next_states = sim2.next_states)
    (hobs : sim1.observ_fluents = sim2.observ_fluents)
    (hpomdp : sim1.pomdp = sim2.pomdp)
    (actions : List (Store V)) :
    JaxRDDLSimulator.runSteps sim1 actions = JaxRDDLSimulator.runSteps sim2 actions := by
  have h : sim1 = sim2 := by
    cases sim1
    cases sim2
    simp_all
  rw [h]

/-- Witness for C3: two runs of the concrete simulator on a two-step
action sequence coincide. -/
theorem step_trajectory_deterministic_witness :
    JaxRDDLSimulator.runSteps csim3 [[("a", 1)], []]
      = JaxRDDLSimulator.runSteps csim3 [[("a", 1)], []] :=
  step_trajectory_deterministic csim3 csim3 rfl rfl rfl rfl rfl rfl rfl rfl rfl rfl rfl
    rfl rfl rfl rfl rfl rfl [[("a", 1)], []]
